import Mathlib

/-!
Shallow embedding of the core of the stm32f411-usb-host-ps2 repository:
the PS/2 framer/transmitter (src/ps2/ps2_init.c), the PS/2 scan-code
constructors (src/ps2/ps2_protocol.c), the USB-HID-to-PS/2 scan-code
translator (src/ps2/scancode_translator.c) and the keyboard capture
buffer (src/usb/keyboard_handler.c), together with theorems checking
the specification's claims against these definitions.

Machine integers are modelled as `Nat` (all values involved are bytes
or small counters; no arithmetic here ever overflows a C `uint8_t`
except where noted).  C output parameters become return values, the
file-scope mutable state of each component becomes an explicit state
record, and the writes a function performs into a caller-supplied
array are recorded as an explicit write trace of
(index, value) pairs so that in-bounds claims can be stated.
-/

/-! ## Scan-code model (ps2_protocol.c)

`PS2_ScanCode_t` is `{ uint8_t data[4]; uint8_t length; }`; the create
functions only ever assign `data[0..length)`, and `ps2_copy_scancode`
only copies that prefix, so a scan code is modelled as the list of its
meaningful bytes (`length` = list length, `length = 0` = empty). -/

def PS2_BREAK_CODE_BYTE : Nat := 0xF0

def PS2_EXTENDED_CODE_BYTE : Nat := 0xE0

/-- `ps2_create_make_code`: a make code is just the key code. -/
def ps2_create_make_code (key_code : Nat) : List Nat := [key_code]

/-- `ps2_create_break_code`: 0xF0 followed by the key code. -/
def ps2_create_break_code (key_code : Nat) : List Nat :=
  [PS2_BREAK_CODE_BYTE, key_code]

/-- `ps2_create_extended_make_code`: 0xE0 followed by the key code. -/
def ps2_create_extended_make_code (key_code : Nat) : List Nat :=
  [PS2_EXTENDED_CODE_BYTE, key_code]

/-- `ps2_create_extended_break_code`: 0xE0, 0xF0, then the key code. -/
def ps2_create_extended_break_code (key_code : Nat) : List Nat :=
  [PS2_EXTENDED_CODE_BYTE, PS2_BREAK_CODE_BYTE, key_code]

/-! ## PS/2 framer/transmitter (ps2_init.c) -/

/-- `PS2_Status_t` from ps2_init.h. -/
inductive PS2_Status where
  | OK
  | ERROR
  | INIT
  | READY
  | TRANSMITTING
deriving DecidableEq, Repr

/-- The odd-parity accumulator of `ps2_send_byte`: `parity` starts at 1
and is XOR-toggled once for every set bit among bits 0..7 of `data`. -/
def ps2_parity (data : Nat) : Nat :=
  (List.range 8).foldl (fun parity bit => if data &&& (1 <<< bit) ≠ 0 then parity ^^^ 1 else parity) 1

/-- The exact sequence of bit values `ps2_send_byte data` passes to
`ps2_send_bit`, in call order: start bit 0, then `(data >> i) & 1` for
`i = 0..7`, then the parity bit, then stop bit 1.  Each call to
`ps2_send_bit` drives the data line to the bit value and pulses the
clock line low then high, so this list is also the transmitted frame. -/
def ps2_send_byte_bits (data : Nat) : List Nat :=
  0 :: (((List.range 8).map fun bit => (data >>> bit) &&& 1) ++ [ps2_parity data, 1])

/-- Result of `ps2_send_scancode`: the returned status, the value of the
file-scope `ps2_status` afterwards, and the concatenated bit trace the
call drove onto the bus (empty = no clock or data line toggling). -/
structure PS2_SendResult where
  result : PS2_Status
  ps2_status' : PS2_Status
  bus_bits : List Nat
deriving DecidableEq, Repr

/-- `ps2_send_scancode(scancode)` acting on the file-scope `ps2_status`.
A `none` argument models a NULL pointer.  A scan code is rejected when
the pointer is NULL or the status is not `PS2_READY`; otherwise every
byte of the sequence is framed by `ps2_send_byte` (which always returns
`PS2_OK`), after which the status returns to `PS2_READY`.  There is no
check of `scancode->length` beyond the loop bound itself. -/
def ps2_send_scancode (ps2_status : PS2_Status) (scancode : Option (List Nat)) : PS2_SendResult :=
  match scancode with
  | none => ⟨PS2_Status.ERROR, ps2_status, []⟩
  | some sc =>
      if ps2_status ≠ PS2_Status.READY then
        ⟨PS2_Status.ERROR, ps2_status, []⟩
      else
        ⟨PS2_Status.OK, PS2_Status.READY, (sc.map ps2_send_byte_bits).flatten⟩

/-! ## Scan-code translator (scancode_translator.c) -/

/-- `KeyMapping_t`: one row of the USB-HID-to-PS/2 mapping table. -/
structure KeyMapping where
  usb_key : Nat
  ps2_key : Nat
  is_extended : Nat
deriving DecidableEq, Repr

/-- `key_mapping_table`, in source order, including the `{0,0,0}`
end-of-table sentinel. -/
def key_mapping_table : List KeyMapping :=
  [⟨0x04, 0x1C, 0⟩, ⟨0x05, 0x32, 0⟩, ⟨0x06, 0x21, 0⟩,
   ⟨0x07, 0x23, 0⟩, ⟨0x08, 0x24, 0⟩, ⟨0x09, 0x2B, 0⟩,
   ⟨0x0A, 0x34, 0⟩, ⟨0x0B, 0x33, 0⟩, ⟨0x0C, 0x43, 0⟩,
   ⟨0x0D, 0x3B, 0⟩, ⟨0x0E, 0x42, 0⟩, ⟨0x0F, 0x4B, 0⟩,
   ⟨0x10, 0x3A, 0⟩, ⟨0x11, 0x31, 0⟩, ⟨0x12, 0x44, 0⟩,
   ⟨0x13, 0x4D, 0⟩, ⟨0x14, 0x15, 0⟩, ⟨0x15, 0x2D, 0⟩,
   ⟨0x16, 0x1B, 0⟩, ⟨0x17, 0x2C, 0⟩, ⟨0x18, 0x3C, 0⟩,
   ⟨0x19, 0x2A, 0⟩, ⟨0x1A, 0x1D, 0⟩, ⟨0x1B, 0x22, 0⟩,
   ⟨0x1C, 0x35, 0⟩, ⟨0x1D, 0x1A, 0⟩,
   ⟨0x1E, 0x16, 0⟩, ⟨0x1F, 0x1E, 0⟩, ⟨0x20, 0x26, 0⟩,
   ⟨0x21, 0x25, 0⟩, ⟨0x22, 0x2E, 0⟩, ⟨0x23, 0x36, 0⟩,
   ⟨0x24, 0x3D, 0⟩, ⟨0x25, 0x3E, 0⟩, ⟨0x26, 0x46, 0⟩,
   ⟨0x27, 0x45, 0⟩,
   ⟨0x28, 0x5A, 0⟩, ⟨0x29, 0x76, 0⟩,
   ⟨0x2A, 0x66, 0⟩, ⟨0x2B, 0x0D, 0⟩,
   ⟨0x2C, 0x29, 0⟩,
   ⟨0x3A, 0x05, 0⟩, ⟨0x3B, 0x06, 0⟩, ⟨0x3C, 0x04, 0⟩,
   ⟨0x3D, 0x0C, 0⟩, ⟨0x3E, 0x03, 0⟩, ⟨0x3F, 0x0B, 0⟩,
   ⟨0x40, 0x83, 0⟩, ⟨0x41, 0x0A, 0⟩, ⟨0x42, 0x01, 0⟩,
   ⟨0x43, 0x09, 0⟩, ⟨0x44, 0x78, 0⟩, ⟨0x45, 0x07, 0⟩,
   ⟨0x49, 0x70, 1⟩, ⟨0x4A, 0x6C, 1⟩,
   ⟨0x4B, 0x7D, 1⟩, ⟨0x4C, 0x71, 1⟩,
   ⟨0x4D, 0x69, 1⟩, ⟨0x4E, 0x7A, 1⟩,
   ⟨0x4F, 0x74, 1⟩, ⟨0x50, 0x6B, 1⟩,
   ⟨0x51, 0x72, 1⟩, ⟨0x52, 0x75, 1⟩,
   ⟨0x00, 0x00, 0⟩]

/-- The loop of `find_ps2_scancode`: walks the table, stopping at the
first entry whose `usb_key` is 0 (the sentinel). -/
def find_ps2_loop : List KeyMapping → Nat → Option (Nat × Nat)
  | [], _ => none
  | e :: rest, usb_key =>
      if e.usb_key = 0 then none
      else if e.usb_key = usb_key then some (e.ps2_key, e.is_extended)
      else find_ps2_loop rest usb_key

/-- `find_ps2_scancode(usb_key, &ps2_key, &is_extended)`: `some (ps2_key,
is_extended)` when the table contains the key, `none` otherwise. -/
def find_ps2_scancode (usb_key : Nat) : Option (Nat × Nat) :=
  find_ps2_loop key_mapping_table usb_key

/-- `USB_HID_KeyboardData_t`: `modifier`, `reserved`, the full 6-entry
`keys` array (kept whole, as `memcmp` compares all of it), and
`key_count`. -/
structure USB_HID_KeyboardData where
  modifier : Nat
  reserved : Nat
  keys : List Nat
  key_count : Nat
deriving DecidableEq, Repr

/-- The all-zero `USB_HID_KeyboardData_t` produced by `memset(.., 0, ..)`. -/
def zeroKeyboardData : USB_HID_KeyboardData :=
  ⟨0, 0, [0, 0, 0, 0, 0, 0], 0⟩

/-- `is_key_in_array(key, array, array_size)`: scans `array[0..size)`. -/
def is_key_in_array (key : Nat) (array : List Nat) (array_size : Nat) : Bool :=
  (List.range array_size).any fun i => array.getD i 0 == key

/-- One `if (modifier_changes & mask)` block of `translate_modifier_keys`:
emits a make (bit now set) or break (bit now clear) code for the given
PS/2 code, extended or not, when the masked bit changed. -/
def modifier_event (old_modifier new_modifier mask code ext : Nat) : List (List Nat) :=
  if (old_modifier ^^^ new_modifier) &&& mask ≠ 0 then
    [if ext ≠ 0 then
       (if new_modifier &&& mask ≠ 0 then ps2_create_extended_make_code code
        else ps2_create_extended_break_code code)
     else
       (if new_modifier &&& mask ≠ 0 then ps2_create_make_code code
        else ps2_create_break_code code)]
  else []

/-- The scan codes `translate_modifier_keys` emits, in the source's
fixed order: left-ctrl 0x01/0x14, left-shift 0x02/0x12, left-alt
0x04/0x11, right-shift 0x20/0x59, then extended right-ctrl 0x10/0x14
and right-alt 0x40/0x11.  (The two GUI bits 0x08/0x80 are not handled.) -/
def modifierEvents (old_modifier new_modifier : Nat) : List (List Nat) :=
  modifier_event old_modifier new_modifier 0x01 0x14 0 ++
  modifier_event old_modifier new_modifier 0x02 0x12 0 ++
  modifier_event old_modifier new_modifier 0x04 0x11 0 ++
  modifier_event old_modifier new_modifier 0x20 0x59 0 ++
  modifier_event old_modifier new_modifier 0x10 0x14 1 ++
  modifier_event old_modifier new_modifier 0x40 0x11 1

/-- `translate_modifier_keys(old, new, scancodes, count)`.  `base` is the
offset of the `scancodes` argument inside `temp_scancodes` and `count0`
the entry value of `*count`; each event is written to absolute index
`base + *count` and `*count` incremented.  The single overflow check at
the end (`*count > 8`) reverts `*count` and reports failure.  Returns
(write trace, final `*count`, success flag). -/
def translate_modifier_keys (old_modifier new_modifier base count0 : Nat) :
    List (Nat × List Nat) × Nat × Bool :=
  let evts := modifierEvents old_modifier new_modifier
  let ws := evts.enum.map fun p => (base + count0 + p.1, p.2)
  if count0 + evts.length > 8 then (ws, count0, false)
  else (ws, count0 + evts.length, true)

/-- Release events of `translate_regular_keys`: for each old-state key
absent from the new state and present in the mapping table, a (possibly
extended) break code, in old-state order. -/
def releaseEvents (old_state new_state : USB_HID_KeyboardData) : List (List Nat) :=
  (List.range old_state.key_count).filterMap fun i =>
    if is_key_in_array (old_state.keys.getD i 0) new_state.keys new_state.key_count then none
    else
      match find_ps2_scancode (old_state.keys.getD i 0) with
      | none => none
      | some pe =>
          some (if pe.2 ≠ 0 then ps2_create_extended_break_code pe.1
                else ps2_create_break_code pe.1)

/-- Press events of `translate_regular_keys`: for each new-state key
absent from the old state and present in the mapping table, a (possibly
extended) make code, in new-state order. -/
def pressEvents (old_state new_state : USB_HID_KeyboardData) : List (List Nat) :=
  (List.range new_state.key_count).filterMap fun i =>
    if is_key_in_array (new_state.keys.getD i 0) old_state.keys old_state.key_count then none
    else
      match find_ps2_scancode (new_state.keys.getD i 0) with
      | none => none
      | some pe =>
          some (if pe.2 ≠ 0 then ps2_create_extended_make_code pe.1
                else ps2_create_make_code pe.1)

/-- All events of `translate_regular_keys`: releases before presses. -/
def regularEvents (old_state new_state : USB_HID_KeyboardData) : List (List Nat) :=
  releaseEvents old_state new_state ++ pressEvents old_state new_state

/-- The emission loop shared by both per-key loops of
`translate_regular_keys`: each event is written to absolute index
`base + *count`, then `*count` incremented, then `*count >=
MAX_TRANSLATION_BUFFER` (8) aborts with failure.  Returns (write trace,
final `*count`, success flag). -/
def emitLoop (base : Nat) : List (List Nat) → Nat → List (Nat × List Nat) × Nat × Bool
  | [], count => ([], count, true)
  | e :: rest, count =>
      if count + 1 ≥ 8 then ([(base + count, e)], count + 1, false)
      else
        let r := emitLoop base rest (count + 1)
        ((base + count, e) :: r.1, r.2.1, r.2.2)

/-- `translate_regular_keys(old_state, new_state, scancodes, count)`:
runs the emission loop over releases then presses; on failure `*count`
is reverted to its entry value (the writes already performed remain). -/
def translate_regular_keys (old_state new_state : USB_HID_KeyboardData) (base count0 : Nat) :
    List (Nat × List Nat) × Nat × Bool :=
  let r := emitLoop base (regularEvents old_state new_state) count0
  if r.2.2 then r else (r.1, count0, false)

/-- `TranslatorStatus_t`. -/
inductive TranslatorStatus where
  | OK
  | ERROR
  | INIT
  | READY
deriving DecidableEq, Repr

/-- The translator's file-scope state: `translator_status` and
`last_usb_state`. -/
structure TranslatorState where
  translator_status : TranslatorStatus
  last_usb_state : USB_HID_KeyboardData
deriving DecidableEq, Repr

/-- State after `scancode_translator_init` (also after
`scancode_translator_reset`): zeroed last state, status ready. -/
def scancode_translator_init : TranslatorState :=
  ⟨TranslatorStatus.READY, zeroKeyboardData⟩

/-- The value at index `i` of `temp_scancodes` after the recorded
writes (last write wins; never-written entries are uninitialized in C
and modelled as the empty sequence — the translator only reads index 0,
and only when at least one event was generated, in which case index 0
has been written). -/
def bufAt (ws : List (Nat × List Nat)) (i : Nat) : List Nat :=
  ((ws.filter fun w => w.1 == i).map Prod.snd).getLastD []

/-- Result of `scancode_translator_usb_to_ps2`: returned status, the
scan code stored through `ps2_scancode` (empty when no changes), the
write trace into the local `temp_scancodes[8]`, and the translator
state afterwards. -/
structure TranslateResult where
  result : TranslatorStatus
  output : List Nat
  writes : List (Nat × List Nat)
  state' : TranslatorState
deriving Repr

/-- `scancode_translator_usb_to_ps2(usb_data, ps2_scancode)`.  Note the
source passes `&temp_scancodes[scancode_count]` as the base of the
regular-key writes while `*count` still starts at `scancode_count`,
so regular-key events land at absolute index
`scancode_count + *count`. -/
def scancode_translator_usb_to_ps2 (st : TranslatorState) (usb_data : USB_HID_KeyboardData) :
    TranslateResult :=
  if st.translator_status ≠ TranslatorStatus.READY then
    ⟨TranslatorStatus.ERROR, [], [], st⟩
  else
    let m := translate_modifier_keys st.last_usb_state.modifier usb_data.modifier 0 0
    if ¬ m.2.2 then ⟨TranslatorStatus.ERROR, [], m.1, st⟩
    else
      let r := translate_regular_keys st.last_usb_state usb_data m.2.1 m.2.1
      if ¬ r.2.2 then ⟨TranslatorStatus.ERROR, [], m.1 ++ r.1, st⟩
      else
        let out := if r.2.1 > 0 then bufAt (m.1 ++ r.1) 0 else []
        ⟨TranslatorStatus.OK, out, m.1 ++ r.1, ⟨st.translator_status, usb_data⟩⟩

/-- The regular-key emission loop exactly as the translator invokes it:
base offset and entry count are both the modifier-event count. -/
def translatorRegularLoop (st : TranslatorState) (usb : USB_HID_KeyboardData) :
    List (Nat × List Nat) × Nat × Bool :=
  emitLoop (modifierEvents st.last_usb_state.modifier usb.modifier).length
    (regularEvents st.last_usb_state usb)
    (modifierEvents st.last_usb_state.modifier usb.modifier).length

/-! ## Keyboard capture and buffer (keyboard_handler.c)

`KEYBOARD_BUFFER_SIZE` is 16.  The file-scope circular buffer
`keyboard_buffer[16]`, its `buffer_head`/`buffer_tail`/`buffer_count`
cursors, `last_keyboard_state` and `handler_status` form the state.
The buffer array is modelled as a total function on indices (the code
only ever accesses indices reduced mod 16). -/

/-- `KeyboardHandlerStatus_t`. -/
inductive KeyboardHandlerStatus where
  | OK
  | ERROR
  | INIT
  | READY
  | BUFFER_FULL
deriving DecidableEq, Repr

/-- The keyboard handler's file-scope state. -/
structure KeyboardHandlerState where
  keyboard_buffer : Nat → USB_HID_KeyboardData
  buffer_head : Nat
  buffer_tail : Nat
  buffer_count : Nat
  last_keyboard_state : USB_HID_KeyboardData
  handler_status : KeyboardHandlerStatus

/-- State after `keyboard_handler_init`: cursors zeroed, last state
zeroed, status ready (the buffer array itself is zero-initialized
static storage). -/
def keyboard_handler_init : KeyboardHandlerState :=
  ⟨fun _ => zeroKeyboardData, 0, 0, 0, zeroKeyboardData, KeyboardHandlerStatus.READY⟩

/-- `keyboard_buffer_is_full`: `buffer_count >= KEYBOARD_BUFFER_SIZE`. -/
def keyboard_buffer_is_full (st : KeyboardHandlerState) : Bool :=
  16 ≤ st.buffer_count

/-- `keyboard_buffer_is_empty`: `buffer_count == 0`. -/
def keyboard_buffer_is_empty (st : KeyboardHandlerState) : Bool :=
  st.buffer_count == 0

/-- `keyboard_buffer_put`: when not full, stores at `buffer_head`,
advances it mod 16 and increments `buffer_count`; otherwise does
nothing. -/
def keyboard_buffer_put (st : KeyboardHandlerState) (data : USB_HID_KeyboardData) :
    KeyboardHandlerState :=
  if keyboard_buffer_is_full st then st
  else
    { st with
      keyboard_buffer := fun i => if i = st.buffer_head then data else st.keyboard_buffer i,
      buffer_head := (st.buffer_head + 1) % 16,
      buffer_count := st.buffer_count + 1 }

/-- `keyboard_buffer_get`: when not empty, reads from `buffer_tail`,
advances it mod 16 and decrements `buffer_count`; when empty the
caller's buffer is untouched (modelled by returning the zero state,
never reached through `keyboard_handler_get_data`). -/
def keyboard_buffer_get (st : KeyboardHandlerState) :
    USB_HID_KeyboardData × KeyboardHandlerState :=
  if keyboard_buffer_is_empty st then (zeroKeyboardData, st)
  else
    (st.keyboard_buffer st.buffer_tail,
     { st with
       buffer_tail := (st.buffer_tail + 1) % 16,
       buffer_count := st.buffer_count - 1 })

/-- `keyboard_handler_get_data`: `none` models both the NULL-pointer
rejection and `KEYBOARD_NO_DATA` on an empty buffer. -/
def keyboard_handler_get_data (st : KeyboardHandlerState) :
    Option USB_HID_KeyboardData × KeyboardHandlerState :=
  if keyboard_buffer_is_empty st then (none, st)
  else
    ((keyboard_buffer_get st).1, (keyboard_buffer_get st).2)

/-- `keyboard_handler_clear_buffer`: zeroes the three cursors. -/
def keyboard_handler_clear_buffer (st : KeyboardHandlerState) : KeyboardHandlerState :=
  { st with buffer_head := 0, buffer_tail := 0, buffer_count := 0 }

/-- `keyboard_parse_hid_report`: modifier from byte 0, reserved zeroed
by the initial `memset`, and the key codes from bytes 2..7 that are
neither 0x00 (no key) nor 0x01 (rollover/error), packed in order into
the zeroed 6-entry key array with `key_count` the number kept. -/
def keyboard_parse_hid_report (report : List Nat) : USB_HID_KeyboardData :=
  let kept := (List.range 6).filterMap fun i =>
    let key_code := report.getD (2 + i) 0
    if key_code ≠ 0 ∧ key_code ≠ 0x01 then some key_code else none
  ⟨report.getD 0 0, 0, kept ++ List.replicate (6 - kept.length) 0, kept.length⟩

/-- `keyboard_handler_process_report(report, report_size)`: rejects a
NULL report (`none`) or a size other than 8; parses; does nothing
when the parsed snapshot equals `last_keyboard_state` (the `memcmp`);
otherwise enqueues if there is room and then updates
`last_keyboard_state`, or fails with `BUFFER_FULL` leaving everything
unchanged. -/
def keyboard_handler_process_report (st : KeyboardHandlerState)
    (report : Option (List Nat)) (report_size : Nat) :
    KeyboardHandlerStatus × KeyboardHandlerState :=
  match report with
  | none => (KeyboardHandlerStatus.ERROR, st)
  | some r =>
      if report_size ≠ 8 then (KeyboardHandlerStatus.ERROR, st)
      else
        let keyboard_data := keyboard_parse_hid_report r
        if keyboard_data = st.last_keyboard_state then (KeyboardHandlerStatus.OK, st)
        else if keyboard_buffer_is_full st then (KeyboardHandlerStatus.BUFFER_FULL, st)
        else
          (KeyboardHandlerStatus.OK,
           { keyboard_buffer_put st keyboard_data with last_keyboard_state := keyboard_data })

/-- Abstract contents of the circular buffer, oldest first. -/
def bufferContents (st : KeyboardHandlerState) : List USB_HID_KeyboardData :=
  (List.range st.buffer_count).map fun i => st.keyboard_buffer ((st.buffer_tail + i) % 16)

/-- Structural invariant of the circular buffer: the tail is reduced,
the count is within capacity, and the head is tail plus count mod 16. -/
def BufferInv (st : KeyboardHandlerState) : Prop :=
  st.buffer_tail < 16 ∧ st.buffer_count ≤ 16 ∧
  st.buffer_head = (st.buffer_tail + st.buffer_count) % 16

/-- Processing a list of reports in order, each passed with its actual
byte length, collecting the returned statuses. -/
def processReports (st : KeyboardHandlerState) :
    List (List Nat) → List KeyboardHandlerStatus × KeyboardHandlerState
  | [] => ([], st)
  | r :: rs =>
      let p := keyboard_handler_process_report st (some r) r.length
      let q := processReports p.2 rs
      (p.1 :: q.1, q.2)

/-- `n` successive dequeues through `keyboard_handler_get_data`,
collecting the snapshots returned (stopping early if the buffer
empties). -/
def drainReports (st : KeyboardHandlerState) : Nat → List USB_HID_KeyboardData × KeyboardHandlerState
  | 0 => ([], st)
  | n + 1 =>
      match keyboard_handler_get_data st with
      | (none, st1) => ([], st1)
      | (some d, st1) =>
          let q := drainReports st1 n
          (d :: q.1, q.2)

/-- Sixteen reports with key codes 2..17 followed by one with key code
18: a concrete instance of the claim's 17 distinct snapshots. -/
def c5Reports : List (List Nat) :=
  (List.range 16).map fun k => [0, 0, k + 2, 0, 0, 0, 0, 0]

/-- The seventeenth distinct report for the capacity-boundary check. -/
def c5Seventeenth : List Nat := [0, 0, 18, 0, 0, 0, 0, 0]

set_option maxRecDepth 4000

example : ps2_send_byte_bits 0x1C =
    [0, 0, 0, 1, 1, 1, 0, 0, 0, 0, 1] := by decide

example : ps2_send_byte_bits 0xFF =
    [0, 1, 1, 1, 1, 1, 1, 1, 1, 1, 1] := by decide

/-- C1: for every byte value `b`, `ps2_send_byte b` emits exactly: a
start bit 0, the 8 data bits of `b` least-significant-bit first, a
parity bit making the number of 1-bits among data plus parity odd, and
a stop bit 1, in that order. -/
theorem C1_send_byte_frame (b : Nat) (hb : b < 256) :
    ps2_send_byte_bits b =
      0 :: (((List.range 8).map fun i => if b.testBit i then 1 else 0) ++ [ps2_parity b, 1]) ∧
    (((List.range 8).map fun i => if b.testBit i then 1 else 0).sum + ps2_parity b) % 2 = 1 := by
  revert hb
  revert b
  decide

/-- Concrete instance of `C1_send_byte_frame` at `b = 0xA5`. -/
theorem C1_send_byte_frame_witness :
    ps2_send_byte_bits 0xA5 =
      0 :: (((List.range 8).map fun i => if (0xA5 : Nat).testBit i then 1 else 0) ++ [ps2_parity 0xA5, 1]) ∧
    (((List.range 8).map fun i => if (0xA5 : Nat).testBit i then 1 else 0).sum + ps2_parity 0xA5) % 2 = 1 :=
  C1_send_byte_frame 0xA5 (by decide)

/-- C4 counterexample: a zero-length sequence sent while the framer is
ready is accepted (`PS2_OK`), with no bus activity; the claim says such
a call fails. -/
theorem C4_zero_length_succeeds :
    (ps2_send_scancode PS2_Status.READY (some [])).result = PS2_Status.OK ∧
    (ps2_send_scancode PS2_Status.READY (some [])).result ≠ PS2_Status.ERROR ∧
    (ps2_send_scancode PS2_Status.READY (some [])).bus_bits = [] := by
  decide

/-- C4 (amended): a call before initialization completes (status not
`PS2_READY`) or with a NULL sequence fails with `PS2_ERROR` and drives
no bus activity; a zero-length sequence is accepted with `PS2_OK` and
also drives no bus activity. -/
theorem C4_send_scancode_guards (ps2_status : PS2_Status) (sc : List Nat) :
    (ps2_send_scancode ps2_status none =
      ⟨PS2_Status.ERROR, ps2_status, []⟩) ∧
    (ps2_status ≠ PS2_Status.READY →
      ps2_send_scancode ps2_status (some sc) = ⟨PS2_Status.ERROR, ps2_status, []⟩) ∧
    (ps2_send_scancode PS2_Status.READY (some []) =
      ⟨PS2_Status.OK, PS2_Status.READY, []⟩) := by
  refine ⟨rfl, fun h => ?_, rfl⟩
  simp [ps2_send_scancode, h]

/-- Concrete instance of `C4_send_scancode_guards` with the framer
still in `PS2_INIT`. -/
theorem C4_send_scancode_guards_witness :
    (ps2_send_scancode PS2_Status.INIT none =
      ⟨PS2_Status.ERROR, PS2_Status.INIT, []⟩) ∧
    (PS2_Status.INIT ≠ PS2_Status.READY →
      ps2_send_scancode PS2_Status.INIT (some [0x1C]) =
        ⟨PS2_Status.ERROR, PS2_Status.INIT, []⟩) ∧
    (ps2_send_scancode PS2_Status.READY (some []) =
      ⟨PS2_Status.OK, PS2_Status.READY, []⟩) :=
  C4_send_scancode_guards PS2_Status.INIT [0x1C]

example :
    (scancode_translator_usb_to_ps2 scancode_translator_init
      ⟨0, 0, [0x04, 0, 0, 0, 0, 0], 1⟩).output = [0x1C] := by decide

example :
    (scancode_translator_usb_to_ps2
      ⟨TranslatorStatus.READY, ⟨0, 0, [0x04, 0x05, 0x06, 0x07, 0x08, 0x09], 6⟩⟩
      ⟨0, 0, [0x0A, 0x0B, 0, 0, 0, 0], 2⟩).result = TranslatorStatus.ERROR := by decide

example :
    ((scancode_translator_usb_to_ps2
      ⟨TranslatorStatus.READY, ⟨0x01, 0, [0x04, 0x05, 0x06, 0x07, 0x08, 0x09], 6⟩⟩
      ⟨0, 0, [0x0A, 0, 0, 0, 0, 0], 1⟩).writes.map Prod.fst) = [0, 2, 3, 4, 5, 6, 7, 8] := by decide

/-! ### Translator lemmas -/

theorem modifier_event_length_le (a b mask code ext : Nat) :
    (modifier_event a b mask code ext).length ≤ 1 := by
  unfold modifier_event
  split <;> simp

theorem modifierEvents_length_le (a b : Nat) : (modifierEvents a b).length ≤ 6 := by
  unfold modifierEvents
  have h1 := modifier_event_length_le a b 0x01 0x14 0
  have h2 := modifier_event_length_le a b 0x02 0x12 0
  have h3 := modifier_event_length_le a b 0x04 0x11 0
  have h4 := modifier_event_length_le a b 0x20 0x59 0
  have h5 := modifier_event_length_le a b 0x10 0x14 1
  have h6 := modifier_event_length_le a b 0x40 0x11 1
  simp only [List.length_append]
  omega

theorem emitLoop_ok_iff (base : Nat) (l : List (List Nat)) (c : Nat) :
    (emitLoop base l c).2.2 = true ↔ (l = [] ∨ c + l.length < 8) := by
  induction l generalizing c with
  | nil => simp [emitLoop]
  | cons e rest ih =>
      by_cases h : c + 1 ≥ 8
      · simp only [emitLoop, if_pos h, List.length_cons]
        constructor
        · intro hf
          exact absurd hf (by simp)
        · intro hor
          rcases hor with h0 | h0
          · exact absurd h0 (by simp)
          · omega
      · simp only [emitLoop, if_neg h, List.length_cons]
        rw [ih (c + 1)]
        constructor
        · intro hor
          rcases hor with h0 | h0
          · subst h0
            right
            simp
            omega
          · right
            omega
        · intro hor
          rcases hor with h0 | h0
          · exact absurd h0 (by simp)
          · rcases rest with _ | ⟨e2, rest2⟩
            · exact Or.inl rfl
            · right
              simp only [List.length_cons] at h0 ⊢
              omega

theorem emitLoop_count_of_ok (base : Nat) (l : List (List Nat)) (c : Nat)
    (h : (emitLoop base l c).2.2 = true) :
    (emitLoop base l c).2.1 = c + l.length := by
  induction l generalizing c with
  | nil => simp [emitLoop]
  | cons e rest ih =>
      by_cases hc : c + 1 ≥ 8
      · simp only [emitLoop, if_pos hc] at h
        exact absurd h (by simp)
      · simp only [emitLoop, if_neg hc] at h ⊢
        rw [ih (c + 1) h]
        simp only [List.length_cons]
        omega

/-- The one call site of `translate_modifier_keys` passes base offset 0
and count 0; since at most 6 modifier events exist against a bound of
8, the stage always succeeds, writing event `i` to index `i`. -/
theorem translate_modifier_keys_zero (a b : Nat) :
    translate_modifier_keys a b 0 0 =
      ((modifierEvents a b).enum, (modifierEvents a b).length, true) := by
  unfold translate_modifier_keys
  rw [if_neg (by have := modifierEvents_length_le a b; omega)]
  simp
/-- Behaviour of the translator from a ready state, fully reduced: the
modifier stage never overflows, after it the count equals the number of
modifier events, and the regular-key stage accepts or aborts according
to its emission loop. -/
theorem translate_ready (st : TranslatorState) (usb : USB_HID_KeyboardData)
    (h : st.translator_status = TranslatorStatus.READY) :
    scancode_translator_usb_to_ps2 st usb =
      (if (translatorRegularLoop st usb).2.2 = true then
         ⟨TranslatorStatus.OK,
          if 0 < (translatorRegularLoop st usb).2.1 then
            bufAt ((modifierEvents st.last_usb_state.modifier usb.modifier).enum ++
              (translatorRegularLoop st usb).1) 0
          else [],
          (modifierEvents st.last_usb_state.modifier usb.modifier).enum ++
            (translatorRegularLoop st usb).1,
          ⟨st.translator_status, usb⟩⟩
       else
         ⟨TranslatorStatus.ERROR, [],
          (modifierEvents st.last_usb_state.modifier usb.modifier).enum ++
            (translatorRegularLoop st usb).1, st⟩) := by
  unfold scancode_translator_usb_to_ps2 translate_regular_keys translatorRegularLoop
  rw [h]
  simp only [ne_eq, not_true_eq_false, if_false, translate_modifier_keys_zero]
  by_cases he : (emitLoop (modifierEvents st.last_usb_state.modifier usb.modifier).length
      (regularEvents st.last_usb_state usb)
      (modifierEvents st.last_usb_state.modifier usb.modifier).length).2.2 = true
  · simp [he]
  · simp [he]

theorem modifier_event_self (a mask code ext : Nat) :
    modifier_event a a mask code ext = [] := by
  unfold modifier_event
  rw [if_neg]
  simp [Nat.xor_self]

theorem modifierEvents_self (a : Nat) : modifierEvents a a = [] := by
  unfold modifierEvents
  simp [modifier_event_self]

theorem is_key_in_array_self (arr : List Nat) (size i : Nat) (hi : i < size) :
    is_key_in_array (arr.getD i 0) arr size = true := by
  unfold is_key_in_array
  rw [List.any_eq_true]
  exact ⟨i, List.mem_range.mpr hi, beq_self_eq_true _⟩

theorem releaseEvents_self (kd : USB_HID_KeyboardData) : releaseEvents kd kd = [] := by
  unfold releaseEvents
  rw [List.filterMap_eq_nil]
  intro i hi
  rw [if_pos (is_key_in_array_self kd.keys kd.key_count i (List.mem_range.mp hi))]

theorem pressEvents_self (kd : USB_HID_KeyboardData) : pressEvents kd kd = [] := by
  unfold pressEvents
  rw [List.filterMap_eq_nil]
  intro i hi
  rw [if_pos (is_key_in_array_self kd.keys kd.key_count i (List.mem_range.mp hi))]

theorem regularEvents_self (kd : USB_HID_KeyboardData) : regularEvents kd kd = [] := by
  unfold regularEvents
  rw [releaseEvents_self, pressEvents_self]
  rfl

/-- Translating a snapshot against itself generates no events and
returns the empty sequence while succeeding. -/
theorem translate_self (usb : USB_HID_KeyboardData) :
    scancode_translator_usb_to_ps2 ⟨TranslatorStatus.READY, usb⟩ usb =
      ⟨TranslatorStatus.OK, [], [], ⟨TranslatorStatus.READY, usb⟩⟩ := by
  rw [translate_ready ⟨TranslatorStatus.READY, usb⟩ usb rfl]
  simp [translatorRegularLoop, modifierEvents_self, regularEvents_self, emitLoop]

/-- On a successful call the translator unconditionally replaces
`last_usb_state` with the current snapshot. -/
theorem translate_ok_updates_last (st : TranslatorState) (usb : USB_HID_KeyboardData)
    (h : st.translator_status = TranslatorStatus.READY)
    (hok : (scancode_translator_usb_to_ps2 st usb).result = TranslatorStatus.OK) :
    (scancode_translator_usb_to_ps2 st usb).state' = ⟨TranslatorStatus.READY, usb⟩ := by
  rw [translate_ready st usb h] at hok ⊢
  by_cases he : (translatorRegularLoop st usb).2.2 = true
  · simp only [he, if_true]
    rw [h]
  · simp only [he] at hok
    simp at hok

/-- C6: translation is idempotent for repeated identical snapshots:
after a successful `translate(current)` from a ready state, `last` has
been unconditionally replaced by `current`, so an immediately repeated
call with the same snapshot succeeds and returns the empty (length 0)
sequence. -/
theorem C6_translate_idempotent (st : TranslatorState) (usb : USB_HID_KeyboardData)
    (h : st.translator_status = TranslatorStatus.READY)
    (hok : (scancode_translator_usb_to_ps2 st usb).result = TranslatorStatus.OK) :
    (scancode_translator_usb_to_ps2 st usb).state' = ⟨TranslatorStatus.READY, usb⟩ ∧
    (scancode_translator_usb_to_ps2
      ((scancode_translator_usb_to_ps2 st usb).state') usb).result = TranslatorStatus.OK ∧
    (scancode_translator_usb_to_ps2
      ((scancode_translator_usb_to_ps2 st usb).state') usb).output = [] := by
  have hu := translate_ok_updates_last st usb h hok
  refine ⟨hu, ?_, ?_⟩ <;> rw [hu, translate_self]

/-- Concrete instance of `C6_translate_idempotent`: pressing key A from
the reset state, then repeating the identical snapshot. -/
theorem C6_translate_idempotent_witness :
    (scancode_translator_usb_to_ps2 scancode_translator_init
        ⟨0, 0, [0x04, 0, 0, 0, 0, 0], 1⟩).state' =
      ⟨TranslatorStatus.READY, ⟨0, 0, [0x04, 0, 0, 0, 0, 0], 1⟩⟩ ∧
    (scancode_translator_usb_to_ps2
      ((scancode_translator_usb_to_ps2 scancode_translator_init
          ⟨0, 0, [0x04, 0, 0, 0, 0, 0], 1⟩).state')
      ⟨0, 0, [0x04, 0, 0, 0, 0, 0], 1⟩).result = TranslatorStatus.OK ∧
    (scancode_translator_usb_to_ps2
      ((scancode_translator_usb_to_ps2 scancode_translator_init
          ⟨0, 0, [0x04, 0, 0, 0, 0, 0], 1⟩).state')
      ⟨0, 0, [0x04, 0, 0, 0, 0, 0], 1⟩).output = [] :=
  C6_translate_idempotent scancode_translator_init
    ⟨0, 0, [0x04, 0, 0, 0, 0, 0], 1⟩ rfl (by decide)

/-- C2 counterexample: a diff generating exactly 8 events (six key
releases plus two key presses, no modifier changes) already fails,
although the claim says a diff of at most 8 events succeeds. -/
theorem C2_eight_events_fail :
    (scancode_translator_usb_to_ps2
        ⟨TranslatorStatus.READY, ⟨0, 0, [0x04, 0x05, 0x06, 0x07, 0x08, 0x09], 6⟩⟩
        ⟨0, 0, [0x0A, 0x0B, 0, 0, 0, 0], 2⟩).result = TranslatorStatus.ERROR ∧
    (modifierEvents 0 0).length +
      (regularEvents ⟨0, 0, [0x04, 0x05, 0x06, 0x07, 0x08, 0x09], 6⟩
        ⟨0, 0, [0x0A, 0x0B, 0, 0, 0, 0], 2⟩).length = 8 := by
  decide

/-- C2 (amended): from a ready state, the translation fails exactly
when the running event count reaches the buffer bound 8 during
regular-key translation — that is, when at least one regular-key event
exists and modifier events plus regular-key events total 8 or more
(with at most 6 modifier events possible, a modifier-only diff never
fails).  On failure `last_usb_state` is unchanged, so an immediately
repeated call with the same snapshot fails the same way. -/
theorem C2_overflow_boundary (st : TranslatorState) (usb : USB_HID_KeyboardData)
    (h : st.translator_status = TranslatorStatus.READY) :
    ((scancode_translator_usb_to_ps2 st usb).result = TranslatorStatus.ERROR ↔
      (1 ≤ (regularEvents st.last_usb_state usb).length ∧
       8 ≤ (modifierEvents st.last_usb_state.modifier usb.modifier).length +
           (regularEvents st.last_usb_state usb).length)) ∧
    ((scancode_translator_usb_to_ps2 st usb).result = TranslatorStatus.ERROR →
      (scancode_translator_usb_to_ps2 st usb).state' = st ∧
      (scancode_translator_usb_to_ps2
        ((scancode_translator_usb_to_ps2 st usb).state') usb).result =
        TranslatorStatus.ERROR) := by
  have hiff : (translatorRegularLoop st usb).2.2 = true ↔
      (regularEvents st.last_usb_state usb = [] ∨
       (modifierEvents st.last_usb_state.modifier usb.modifier).length +
         (regularEvents st.last_usb_state usb).length < 8) :=
    emitLoop_ok_iff
      (modifierEvents st.last_usb_state.modifier usb.modifier).length
      (regularEvents st.last_usb_state usb)
      (modifierEvents st.last_usb_state.modifier usb.modifier).length
  rw [translate_ready st usb h]
  cases he : (translatorRegularLoop st usb).2.2 with
  | true =>
      rw [hiff] at he
      rw [if_pos rfl]
      constructor
      · constructor
        · intro hcon
          exact absurd hcon (by simp)
        · intro hcon
          rcases he with h0 | h0
          · rw [h0] at hcon
            simp at hcon
          · omega
      · intro hcon
        exact absurd hcon (by simp)
  | false =>
      rw [if_neg (by simp)]
      have hne : regularEvents st.last_usb_state usb ≠ [] ∧
          8 ≤ (modifierEvents st.last_usb_state.modifier usb.modifier).length +
              (regularEvents st.last_usb_state usb).length := by
        have hff : ¬ (regularEvents st.last_usb_state usb = [] ∨
            (modifierEvents st.last_usb_state.modifier usb.modifier).length +
              (regularEvents st.last_usb_state usb).length < 8) := by
          rw [← hiff, he]
          simp
        push_neg at hff
        exact ⟨hff.1, by omega⟩
      constructor
      · constructor
        · intro _
          refine ⟨?_, hne.2⟩
          rcases hr : regularEvents st.last_usb_state usb with _ | ⟨e, rest⟩
          · exact absurd hr hne.1
          · simp [hr]
        · intro _
          rfl
      · intro _
        refine ⟨rfl, ?_⟩
        show (scancode_translator_usb_to_ps2 st usb).result = TranslatorStatus.ERROR
        rw [translate_ready st usb h, he, if_neg (by simp)]

/-- Concrete instance of `C2_overflow_boundary`: six releases plus two
presses (8 events, one of them regular) fail, and the failure leaves
the state unchanged so the repeated call fails identically. -/
theorem C2_overflow_boundary_witness :
    ((scancode_translator_usb_to_ps2
        ⟨TranslatorStatus.READY, ⟨0, 0, [0x04, 0x05, 0x06, 0x07, 0x08, 0x09], 6⟩⟩
        ⟨0, 0, [0x0A, 0x0B, 0, 0, 0, 0], 2⟩).result = TranslatorStatus.ERROR ↔
      (1 ≤ (regularEvents ⟨0, 0, [0x04, 0x05, 0x06, 0x07, 0x08, 0x09], 6⟩
              ⟨0, 0, [0x0A, 0x0B, 0, 0, 0, 0], 2⟩).length ∧
       8 ≤ (modifierEvents 0 0).length +
           (regularEvents ⟨0, 0, [0x04, 0x05, 0x06, 0x07, 0x08, 0x09], 6⟩
             ⟨0, 0, [0x0A, 0x0B, 0, 0, 0, 0], 2⟩).length)) ∧
    ((scancode_translator_usb_to_ps2
        ⟨TranslatorStatus.READY, ⟨0, 0, [0x04, 0x05, 0x06, 0x07, 0x08, 0x09], 6⟩⟩
        ⟨0, 0, [0x0A, 0x0B, 0, 0, 0, 0], 2⟩).result = TranslatorStatus.ERROR →
      (scancode_translator_usb_to_ps2
        ⟨TranslatorStatus.READY, ⟨0, 0, [0x04, 0x05, 0x06, 0x07, 0x08, 0x09], 6⟩⟩
        ⟨0, 0, [0x0A, 0x0B, 0, 0, 0, 0], 2⟩).state' =
        ⟨TranslatorStatus.READY, ⟨0, 0, [0x04, 0x05, 0x06, 0x07, 0x08, 0x09], 6⟩⟩ ∧
      (scancode_translator_usb_to_ps2
        ((scancode_translator_usb_to_ps2
          ⟨TranslatorStatus.READY, ⟨0, 0, [0x04, 0x05, 0x06, 0x07, 0x08, 0x09], 6⟩⟩
          ⟨0, 0, [0x0A, 0x0B, 0, 0, 0, 0], 2⟩).state')
        ⟨0, 0, [0x0A, 0x0B, 0, 0, 0, 0], 2⟩).result = TranslatorStatus.ERROR) :=
  C2_overflow_boundary
    ⟨TranslatorStatus.READY, ⟨0, 0, [0x04, 0x05, 0x06, 0x07, 0x08, 0x09], 6⟩⟩
    ⟨0, 0, [0x0A, 0x0B, 0, 0, 0, 0], 2⟩ rfl

/-- C3: evaluation at a failing input.  With a left-ctrl release (one
modifier event) and seven regular-key events (six releases, one press),
the regular-key stage — whose writes are double-offset by the modifier
count — writes its seventh event to index 8 of the 8-entry
`temp_scancodes` buffer, one past the end, before the overflow check
aborts the call. -/
theorem C3_out_of_bounds_write :
    ((scancode_translator_usb_to_ps2
        ⟨TranslatorStatus.READY, ⟨0x01, 0, [0x04, 0x05, 0x06, 0x07, 0x08, 0x09], 6⟩⟩
        ⟨0, 0, [0x0A, 0, 0, 0, 0, 0], 1⟩).writes.map Prod.fst) = [0, 2, 3, 4, 5, 6, 7, 8] ∧
    ¬ (∀ w ∈ (scancode_translator_usb_to_ps2
        ⟨TranslatorStatus.READY, ⟨0x01, 0, [0x04, 0x05, 0x06, 0x07, 0x08, 0x09], 6⟩⟩
        ⟨0, 0, [0x0A, 0, 0, 0, 0, 0], 1⟩).writes, w.1 < 8) := by
  decide

/-- C8: from the all-released reset state, translating "key A pressed"
then "all released" emits make `0x1C`, then break `0xF0 0x1C`. -/
theorem C8_press_release_A :
    (scancode_translator_usb_to_ps2 scancode_translator_init
        ⟨0, 0, [0x04, 0, 0, 0, 0, 0], 1⟩).result = TranslatorStatus.OK ∧
    (scancode_translator_usb_to_ps2 scancode_translator_init
        ⟨0, 0, [0x04, 0, 0, 0, 0, 0], 1⟩).output = [0x1C] ∧
    (scancode_translator_usb_to_ps2
      ((scancode_translator_usb_to_ps2 scancode_translator_init
          ⟨0, 0, [0x04, 0, 0, 0, 0, 0], 1⟩).state')
      zeroKeyboardData).result = TranslatorStatus.OK ∧
    (scancode_translator_usb_to_ps2
      ((scancode_translator_usb_to_ps2 scancode_translator_init
          ⟨0, 0, [0x04, 0, 0, 0, 0, 0], 1⟩).state')
      zeroKeyboardData).output = [0xF0, 0x1C] := by
  decide

/-- C9: from the all-released reset state, pressing right-alt (modifier
bit 0x40) then releasing it emits extended make `0xE0 0x11`, then
extended break `0xE0 0xF0 0x11`. -/
theorem C9_press_release_right_alt :
    (scancode_translator_usb_to_ps2 scancode_translator_init
        ⟨0x40, 0, [0, 0, 0, 0, 0, 0], 0⟩).result = TranslatorStatus.OK ∧
    (scancode_translator_usb_to_ps2 scancode_translator_init
        ⟨0x40, 0, [0, 0, 0, 0, 0, 0], 0⟩).output = [0xE0, 0x11] ∧
    (scancode_translator_usb_to_ps2
      ((scancode_translator_usb_to_ps2 scancode_translator_init
          ⟨0x40, 0, [0, 0, 0, 0, 0, 0], 0⟩).state')
      zeroKeyboardData).result = TranslatorStatus.OK ∧
    (scancode_translator_usb_to_ps2
      ((scancode_translator_usb_to_ps2 scancode_translator_init
          ⟨0x40, 0, [0, 0, 0, 0, 0, 0], 0⟩).state')
      zeroKeyboardData).output = [0xE0, 0xF0, 0x11] := by
  decide

/-! ### Capture-buffer lemmas -/

theorem mod16_ne (tail count i : Nat) (htail : tail < 16) (hcount : count < 16)
    (hi : i < count) : (tail + i) % 16 ≠ (tail + count) % 16 := by
  intro hEq
  have hmod : i ≡ count [MOD 16] := Nat.ModEq.add_left_cancel' tail hEq
  have : i % 16 = count % 16 := hmod
  rw [Nat.mod_eq_of_lt (lt_trans hi hcount), Nat.mod_eq_of_lt hcount] at this
  omega

theorem keyboard_buffer_put_spec (st : KeyboardHandlerState) (d : USB_HID_KeyboardData)
    (hinv : BufferInv st) (hroom : st.buffer_count < 16) :
    BufferInv (keyboard_buffer_put st d) ∧
    (keyboard_buffer_put st d).buffer_count = st.buffer_count + 1 ∧
    (keyboard_buffer_put st d).buffer_tail = st.buffer_tail ∧
    (keyboard_buffer_put st d).last_keyboard_state = st.last_keyboard_state ∧
    bufferContents (keyboard_buffer_put st d) = bufferContents st ++ [d] := by
  obtain ⟨htail, hcount, hhead⟩ := hinv
  have hnotfull : ¬ (keyboard_buffer_is_full st = true) := by
    simp [keyboard_buffer_is_full]
    omega
  unfold keyboard_buffer_put
  rw [if_neg hnotfull]
  refine ⟨⟨htail, show st.buffer_count + 1 ≤ 16 by omega, ?_⟩, rfl, rfl, rfl, ?_⟩
  · show (st.buffer_head + 1) % 16 = (st.buffer_tail + (st.buffer_count + 1)) % 16
    rw [hhead, Nat.mod_add_mod, ← Nat.add_assoc]
  · show (List.range (st.buffer_count + 1)).map
        (fun i => if (st.buffer_tail + i) % 16 = st.buffer_head then d
                  else st.keyboard_buffer ((st.buffer_tail + i) % 16)) =
      bufferContents st ++ [d]
    rw [List.range_succ, List.map_append, bufferContents]
    congr 1
    · apply List.map_congr_left
      intro i hi
      have hne := mod16_ne st.buffer_tail st.buffer_count i htail hroom (List.mem_range.mp hi)
      rw [hhead, if_neg hne]
    · simp only [List.map_cons, List.map_nil]
      rw [hhead, if_pos rfl]

theorem keyboard_handler_get_data_spec (st : KeyboardHandlerState)
    (hinv : BufferInv st) (hne : 0 < st.buffer_count) :
    (keyboard_handler_get_data st).1 = some (st.keyboard_buffer st.buffer_tail) ∧
    BufferInv (keyboard_handler_get_data st).2 ∧
    (keyboard_handler_get_data st).2.buffer_count = st.buffer_count - 1 ∧
    bufferContents st =
      st.keyboard_buffer st.buffer_tail :: bufferContents (keyboard_handler_get_data st).2 := by
  obtain ⟨htail, hcount, hhead⟩ := hinv
  have hnotempty : ¬ (keyboard_buffer_is_empty st = true) := by
    simp [keyboard_buffer_is_empty]
    omega
  unfold keyboard_handler_get_data keyboard_buffer_get
  rw [if_neg hnotempty, if_neg hnotempty]
  refine ⟨rfl, ⟨Nat.mod_lt _ (by omega),
    show st.buffer_count - 1 ≤ 16 by omega, ?_⟩, rfl, ?_⟩
  · show st.buffer_head = ((st.buffer_tail + 1) % 16 + (st.buffer_count - 1)) % 16
    rw [hhead, Nat.mod_add_mod]
    congr 1
    omega
  · obtain ⟨k, hk⟩ : ∃ k, st.buffer_count = k + 1 := ⟨st.buffer_count - 1, by omega⟩
    show bufferContents st = st.keyboard_buffer st.buffer_tail ::
      (List.range (st.buffer_count - 1)).map
        (fun i => st.keyboard_buffer (((st.buffer_tail + 1) % 16 + i) % 16))
    rw [bufferContents, hk, List.range_succ_eq_map, List.map_cons, List.map_map]
    congr 1
    · rw [Nat.add_zero, Nat.mod_eq_of_lt htail]
    · simp only [Nat.add_sub_cancel]
      apply List.map_congr_left
      intro i hi
      show st.keyboard_buffer ((st.buffer_tail + (i + 1)) % 16) =
        st.keyboard_buffer (((st.buffer_tail + 1) % 16 + i) % 16)
      rw [Nat.mod_add_mod]
      congr 1
      omega

theorem keyboard_handler_process_report_step (st : KeyboardHandlerState) (r : List Nat)
    (hinv : BufferInv st) (hroom : st.buffer_count < 16) (h8 : r.length = 8)
    (hne : keyboard_parse_hid_report r ≠ st.last_keyboard_state) :
    keyboard_handler_process_report st (some r) r.length =
      (KeyboardHandlerStatus.OK,
       { keyboard_buffer_put st (keyboard_parse_hid_report r) with
         last_keyboard_state := keyboard_parse_hid_report r }) := by
  have hfullb : ¬ (keyboard_buffer_is_full st = true) := by
    simp [keyboard_buffer_is_full]
    omega
  unfold keyboard_handler_process_report
  simp only []
  rw [if_neg (show ¬ (r.length ≠ 8) by omega), if_neg hne, if_neg hfullb]

theorem processReports_spec (rs : List (List Nat)) : ∀ st : KeyboardHandlerState,
    BufferInv st →
    st.buffer_count + rs.length ≤ 16 →
    (∀ r ∈ rs, r.length = 8) →
    List.Chain Ne st.last_keyboard_state (rs.map keyboard_parse_hid_report) →
    (processReports st rs).1 = List.replicate rs.length KeyboardHandlerStatus.OK ∧
    BufferInv (processReports st rs).2 ∧
    (processReports st rs).2.buffer_count = st.buffer_count + rs.length ∧
    (processReports st rs).2.buffer_tail = st.buffer_tail ∧
    (processReports st rs).2.last_keyboard_state =
      (rs.map keyboard_parse_hid_report).getLastD st.last_keyboard_state ∧
    bufferContents (processReports st rs).2 =
      bufferContents st ++ rs.map keyboard_parse_hid_report := by
  induction rs with
  | nil =>
      intro st hinv _ _ _
      refine ⟨rfl, hinv, by simp [processReports], rfl, rfl, by simp [processReports, bufferContents]⟩
  | cons r rs ih =>
      intro st hinv hlen h8 hchain
      rw [List.map_cons, List.chain_cons] at hchain
      obtain ⟨hne1, hchain1⟩ := hchain
      have h8r : r.length = 8 := h8 r (by simp)
      have hstep := keyboard_handler_process_report_step st r hinv
        (by simp only [List.length_cons] at hlen; omega) h8r (Ne.symm hne1)
      obtain ⟨hpinv, hpc, hpt, hpl, hpcont⟩ :=
        keyboard_buffer_put_spec st (keyboard_parse_hid_report r) hinv
          (by simp only [List.length_cons] at hlen; omega)
      simp only [processReports, hstep]
      set st1 : KeyboardHandlerState :=
        { keyboard_buffer_put st (keyboard_parse_hid_report r) with
          last_keyboard_state := keyboard_parse_hid_report r } with hst1
      have hinv1 : BufferInv st1 := hpinv
      have hc1 : st1.buffer_count = st.buffer_count + 1 := hpc
      have ht1 : st1.buffer_tail = st.buffer_tail := hpt
      have hl1 : st1.last_keyboard_state = keyboard_parse_hid_report r := rfl
      have hcont1 : bufferContents st1 = bufferContents st ++ [keyboard_parse_hid_report r] :=
        hpcont
      obtain ⟨ihres, ihinv, ihc, iht, ihl, ihcont⟩ := ih st1 hinv1
        (by simp only [List.length_cons] at hlen; omega)
        (fun x hx => h8 x (by simp [hx]))
        (by rw [hl1]; exact hchain1)
      refine ⟨?_, ihinv, ?_, ?_, ?_, ?_⟩
      · rw [ihres, List.length_cons, List.replicate_succ]
      · rw [ihc, hc1, List.length_cons]
        omega
      · rw [iht, ht1]
      · rw [ihl, hl1, List.map_cons, List.getLastD_cons]
      · rw [ihcont, hcont1, List.map_cons, List.append_assoc, List.singleton_append]

theorem drainReports_spec : ∀ (n : Nat) (st : KeyboardHandlerState),
    BufferInv st → st.buffer_count = n →
    (drainReports st n).1 = bufferContents st := by
  intro n
  induction n with
  | zero =>
      intro st _ h0
      rw [bufferContents, h0]
      rfl
  | succ k ih =>
      intro st hinv hcnt
      obtain ⟨hfst, hinv1, hc1, hcont⟩ :=
        keyboard_handler_get_data_spec st hinv (by omega)
      cases hp : keyboard_handler_get_data st with
      | mk o st2 =>
          cases o with
          | none =>
              rw [hp] at hfst
              exact absurd hfst (by simp)
          | some d =>
              rw [hp] at hfst hinv1 hc1 hcont
              simp only [Option.some.injEq] at hfst
              simp only [drainReports, hp]
              rw [hcont, hfst]
              have hc2 : st2.buffer_count = st.buffer_count - 1 := hc1
              have := ih st2 hinv1 (by omega)
              simp only [this]

/-- C7: a report whose parsed snapshot equals the most recently
captured snapshot is dropped: `process_report` returns success, the
state (hence the queue contents) is unchanged, nothing is enqueued. -/
theorem C7_identical_report_no_enqueue (st : KeyboardHandlerState) (r : List Nat)
    (h8 : r.length = 8)
    (heq : keyboard_parse_hid_report r = st.last_keyboard_state) :
    keyboard_handler_process_report st (some r) r.length = (KeyboardHandlerStatus.OK, st) ∧
    bufferContents (keyboard_handler_process_report st (some r) r.length).2 =
      bufferContents st ∧
    (keyboard_handler_process_report st (some r) r.length).2.buffer_count =
      st.buffer_count := by
  have h : keyboard_handler_process_report st (some r) r.length =
      (KeyboardHandlerStatus.OK, st) := by
    unfold keyboard_handler_process_report
    simp only []
    rw [if_neg (show ¬ (r.length ≠ 8) by omega), if_pos heq]
  exact ⟨h, by rw [h], by rw [h]⟩

/-- Concrete instance of `C7_identical_report_no_enqueue`: the handler
has just captured "key A pressed" and receives the same report again. -/
theorem C7_identical_report_no_enqueue_witness :
    keyboard_handler_process_report
      { keyboard_handler_init with
        last_keyboard_state := keyboard_parse_hid_report [0, 0, 0x04, 0, 0, 0, 0, 0] }
      (some [0, 0, 0x04, 0, 0, 0, 0, 0]) ([0, 0, 0x04, 0, 0, 0, 0, 0] : List Nat).length =
      (KeyboardHandlerStatus.OK,
       { keyboard_handler_init with
         last_keyboard_state := keyboard_parse_hid_report [0, 0, 0x04, 0, 0, 0, 0, 0] }) ∧
    bufferContents (keyboard_handler_process_report
      { keyboard_handler_init with
        last_keyboard_state := keyboard_parse_hid_report [0, 0, 0x04, 0, 0, 0, 0, 0] }
      (some [0, 0, 0x04, 0, 0, 0, 0, 0]) ([0, 0, 0x04, 0, 0, 0, 0, 0] : List Nat).length).2 =
      bufferContents
        { keyboard_handler_init with
          last_keyboard_state := keyboard_parse_hid_report [0, 0, 0x04, 0, 0, 0, 0, 0] } ∧
    (keyboard_handler_process_report
      { keyboard_handler_init with
        last_keyboard_state := keyboard_parse_hid_report [0, 0, 0x04, 0, 0, 0, 0, 0] }
      (some [0, 0, 0x04, 0, 0, 0, 0, 0]) ([0, 0, 0x04, 0, 0, 0, 0, 0] : List Nat).length).2.buffer_count =
      { keyboard_handler_init with
        last_keyboard_state := keyboard_parse_hid_report [0, 0, 0x04, 0, 0, 0, 0, 0] }.buffer_count :=
  C7_identical_report_no_enqueue
    { keyboard_handler_init with
      last_keyboard_state := keyboard_parse_hid_report [0, 0, 0x04, 0, 0, 0, 0, 0] }
    [0, 0, 0x04, 0, 0, 0, 0, 0] (by decide) rfl

/-- C10: the capture queue's count never leaves `[0, 16]` under put,
get, clear or `process_report`, and a put on a full queue (count at
capacity 16) leaves the whole state — buffer contents, head, tail,
count — unchanged. -/
theorem C10_buffer_invariants (st : KeyboardHandlerState) (d : USB_HID_KeyboardData)
    (rep : Option (List Nat)) (sz : Nat) :
    (16 ≤ st.buffer_count → keyboard_buffer_put st d = st) ∧
    (st.buffer_count ≤ 16 →
      (keyboard_buffer_put st d).buffer_count ≤ 16 ∧
      (keyboard_handler_get_data st).2.buffer_count ≤ 16 ∧
      (keyboard_handler_clear_buffer st).buffer_count ≤ 16 ∧
      (keyboard_handler_process_report st rep sz).2.buffer_count ≤ 16) := by
  constructor
  · intro hfull
    unfold keyboard_buffer_put
    rw [if_pos (by simp [keyboard_buffer_is_full]; omega)]
  · intro hle
    refine ⟨?_, ?_, ?_, ?_⟩
    · unfold keyboard_buffer_put
      split
      · exact hle
      · show st.buffer_count + 1 ≤ 16
        rename_i hns
        simp [keyboard_buffer_is_full] at hns
        omega
    · unfold keyboard_handler_get_data keyboard_buffer_get
      split
      · exact hle
      · show st.buffer_count - 1 ≤ 16
        omega
    · show (0 : Nat) ≤ 16
      omega
    · cases rep with
      | none => exact hle
      | some r =>
          unfold keyboard_handler_process_report
          simp only []
          split
          · exact hle
          · split
            · exact hle
            · split
              · exact hle
              · unfold keyboard_buffer_put
                split
                · exact hle
                · show st.buffer_count + 1 ≤ 16
                  rename_i hns
                  simp [keyboard_buffer_is_full] at hns
                  omega

/-- Concrete instance of `C10_buffer_invariants` on a full queue
(count 16), which satisfies both hypotheses at once. -/
theorem C10_buffer_invariants_witness :
    (keyboard_buffer_put { keyboard_handler_init with buffer_count := 16 } zeroKeyboardData =
      { keyboard_handler_init with buffer_count := 16 }) ∧
    ((keyboard_buffer_put { keyboard_handler_init with buffer_count := 16 }
        zeroKeyboardData).buffer_count ≤ 16 ∧
     (keyboard_handler_get_data
        { keyboard_handler_init with buffer_count := 16 }).2.buffer_count ≤ 16 ∧
     (keyboard_handler_clear_buffer
        { keyboard_handler_init with buffer_count := 16 }).buffer_count ≤ 16 ∧
     (keyboard_handler_process_report { keyboard_handler_init with buffer_count := 16 }
        (some [0, 0, 0x04, 0, 0, 0, 0, 0]) 8).2.buffer_count ≤ 16) :=
  ⟨(C10_buffer_invariants { keyboard_handler_init with buffer_count := 16 }
      zeroKeyboardData (some [0, 0, 0x04, 0, 0, 0, 0, 0]) 8).1 (by decide),
   (C10_buffer_invariants { keyboard_handler_init with buffer_count := 16 }
      zeroKeyboardData (some [0, 0, 0x04, 0, 0, 0, 0, 0]) 8).2 (by decide)⟩

/-- C5: from the freshly initialized handler, sixteen 8-byte reports
whose parsed snapshots form a chain of consecutive distinctness
(starting from the all-zero initial capture state) are all enqueued
with success; a seventeenth report parsing differently from the
sixteenth snapshot then returns `BUFFER_FULL` and leaves the state
(oldest entry, cursors, most-recently-captured reference) untouched,
and sixteen dequeues return exactly the sixteen snapshots in FIFO
order. -/
theorem C5_capacity_boundary (rs : List (List Nat)) (r17 : List Nat)
    (hlen : rs.length = 16) (h8 : ∀ r ∈ rs, r.length = 8) (h8r : r17.length = 8)
    (hchain : List.Chain Ne zeroKeyboardData (rs.map keyboard_parse_hid_report))
    (hne17 : keyboard_parse_hid_report r17 ≠
      (rs.map keyboard_parse_hid_report).getLastD zeroKeyboardData) :
    (processReports keyboard_handler_init rs).1 =
      List.replicate 16 KeyboardHandlerStatus.OK ∧
    keyboard_handler_process_report (processReports keyboard_handler_init rs).2
      (some r17) r17.length =
      (KeyboardHandlerStatus.BUFFER_FULL, (processReports keyboard_handler_init rs).2) ∧
    (drainReports
      (keyboard_handler_process_report (processReports keyboard_handler_init rs).2
        (some r17) r17.length).2 16).1 =
      rs.map keyboard_parse_hid_report := by
  have hinv0 : BufferInv keyboard_handler_init := by
    refine ⟨by decide, by decide, by decide⟩
  obtain ⟨hress, hinv, hc, ht, hlast, hcont⟩ :=
    processReports_spec rs keyboard_handler_init hinv0
      (show (0 : Nat) + rs.length ≤ 16 by omega)
      h8 hchain
  have hc16 : (processReports keyboard_handler_init rs).2.buffer_count = 16 := by
    rw [hc, hlen]
    decide
  have hfull17 : keyboard_handler_process_report (processReports keyboard_handler_init rs).2
      (some r17) r17.length =
      (KeyboardHandlerStatus.BUFFER_FULL, (processReports keyboard_handler_init rs).2) := by
    unfold keyboard_handler_process_report
    simp only []
    rw [if_neg (show ¬ (r17.length ≠ 8) by omega),
      if_neg (by rw [hlast]; exact hne17),
      if_pos (by simp [keyboard_buffer_is_full]; omega)]
  refine ⟨by rw [hress, hlen], hfull17, ?_⟩
  rw [hfull17]
  have hdrain := drainReports_spec 16 (processReports keyboard_handler_init rs).2 hinv hc16
  rw [hdrain, hcont]
  show ([] : List USB_HID_KeyboardData) ++ rs.map keyboard_parse_hid_report = _
  rw [List.nil_append]


/-- Concrete instance of `C5_capacity_boundary` on `c5Reports` and
`c5Seventeenth`. -/
theorem C5_capacity_boundary_witness :
    (processReports keyboard_handler_init c5Reports).1 =
      List.replicate 16 KeyboardHandlerStatus.OK ∧
    keyboard_handler_process_report (processReports keyboard_handler_init c5Reports).2
      (some c5Seventeenth) c5Seventeenth.length =
      (KeyboardHandlerStatus.BUFFER_FULL,
       (processReports keyboard_handler_init c5Reports).2) ∧
    (drainReports
      (keyboard_handler_process_report (processReports keyboard_handler_init c5Reports).2
        (some c5Seventeenth) c5Seventeenth.length).2 16).1 =
      c5Reports.map keyboard_parse_hid_report :=
  C5_capacity_boundary c5Reports c5Seventeenth (by decide) (by decide) (by decide)
    (by repeat (first | exact List.Chain.nil | refine List.Chain.cons (by decide) ?_))
    (by decide)
